import Mathlib

/-!
Formal model of `src/bot.py` (steam-inventory-bot): a shallow embedding of the
price-monitoring bot's helpers (`safe_get_json`, `load_json`/`save_json`,
`append_history`, `fetch_price_for_item`, `get_3hr_avg`) and of the per-item
loop of `main`, together with theorems about the staleness gate, the two
alert signals, the history ledger and the cache round trip.

Conventions of the embedding:
* prices and wall-clock times are exact rationals (`ℚ`);
* Python exceptions that escape to a caller are `Except.error` values of
  `PyErr`; exceptions the code catches are folded into the control flow at
  the place of the corresponding `try`/`except`;
* the network, the wall clock and the Discord endpoints are oracles passed
  in as arguments; sending an alert is modelled by recording it in a list;
* parsed JSON documents are a `JValue` AST; the textual layer of
  `json.dump`/`json.load` belongs to the Python standard library and files
  therefore hold parsed documents directly;
* `float(...)` parsing and float formatting are modelled on the
  finite-decimal numerals the bot actually reads and writes.
-/

namespace SteamBot

/-! ## String helpers (models of Python `str` methods) -/

/-- Characters removed by Python `str.strip` (the ASCII whitespace that can
occur in this program's data). -/
def isSpaceChar (c : Char) : Bool :=
  c = ' ' || c = '\t' || c = '\n' || c = '\r' || c = '\x0b' || c = '\x0c'

/-- Model of Python `str.strip` on a character list. -/
def trimChars (l : List Char) : List Char :=
  ((l.dropWhile isSpaceChar).reverse.dropWhile isSpaceChar).reverse

/-- Model of Python `str.strip`. -/
def strTrim (s : String) : String := ⟨trimChars s.data⟩

/-- Split a character list on a separator character; model of Python
`str.split(sep)` for a one-character separator. -/
def splitOnChar (sep : Char) : List Char → List (List Char)
  | [] => [[]]
  | c :: rest =>
    if c = sep then [] :: splitOnChar sep rest
    else
      match splitOnChar sep rest with
      | [] => [[c]]
      | g :: gs => (c :: g) :: gs

/-- Model of Python `str.split(",")`. -/
def splitCommas (s : String) : List String :=
  (splitOnChar ',' s.data).map (fun l => ⟨l⟩)

/-- Numeric value of a decimal digit character. -/
def digitVal (c : Char) : ℕ := c.toNat - 48

/-- Value of a list of decimal digit characters, most significant first. -/
def digitsToNat (l : List Char) : ℕ := l.foldl (fun a c => 10 * a + digitVal c) 0

/-- All characters are decimal digits. -/
def allDigits (l : List Char) : Bool := l.all Char.isDigit

/-- Decimal digit character of a value below 10. -/
def digitChar (n : ℕ) : Char := Char.ofNat (48 + n)

/-- Decimal digits of a natural number (fuel-driven). -/
def natDigitsAux : ℕ → ℕ → List Char
  | 0, _ => []
  | fuel + 1, n =>
    if n < 10 then [digitChar n] else natDigitsAux fuel (n / 10) ++ [digitChar (n % 10)]

/-- Decimal digits of a natural number. -/
def natToChars (n : ℕ) : List Char := natDigitsAux (n + 1) n

/-- Decimal digits of a natural number, left-padded with zeros to width `w`. -/
def padChars (w n : ℕ) : List Char :=
  List.replicate (w - (natToChars n).length) '0' ++ natToChars n

/-! ## Model of Python `float(...)` and float formatting -/

/-- Parse an unsigned decimal numeral, with an optional fractional part.
Together with `parseFloat` this models the Python `float(...)` grammar on the
plain decimal numerals this program reads back (no exponents). -/
def parseDecChars (l : List Char) : Option ℚ :=
  match splitOnChar '.' l with
  | [ip] => if ip ≠ [] ∧ allDigits ip then some (digitsToNat ip) else none
  | [ip, fp] =>
    if (ip ≠ [] ∨ fp ≠ []) ∧ allDigits ip ∧ allDigits fp then
      some ((digitsToNat ip : ℚ) + (digitsToNat fp : ℚ) / (10 : ℚ) ^ fp.length)
    else none
  | _ => none

/-- Model of Python `float(s)` on signed decimal numerals; `float` strips
surrounding whitespace and allows one leading sign. -/
def parseFloat (s : String) : Option ℚ :=
  match trimChars s.data with
  | '-' :: rest => (parseDecChars rest).map (fun q => -q)
  | '+' :: rest => parseDecChars rest
  | l => parseDecChars l

/-- Smallest exponent `k` (searched up to the fuel) with `q * 10 ^ k` an
integer. -/
def findDecExpAux (q : ℚ) : ℕ → ℕ → Option ℕ
  | k, 0 => if (q * (10 : ℚ) ^ k).den = 1 then some k else none
  | k, fuel + 1 =>
    if (q * (10 : ℚ) ^ k).den = 1 then some k else findDecExpAux q (k + 1) fuel

/-- Decimal rendering of a nonnegative rational with a finite decimal
expansion, in Python `str(float)` style (an integer renders as `"2.0"`). -/
def ratDecChars (q : ℚ) : List Char :=
  match findDecExpAux q 0 60 with
  | none => ['?']
  | some 0 => natToChars q.num.toNat ++ ['.', '0']
  | some (k + 1) =>
    let s := natToChars (q * (10 : ℚ) ^ (k + 1)).num.toNat
    if s.length ≤ k + 1 then
      '0' :: '.' :: (List.replicate (k + 1 - s.length) '0' ++ s)
    else
      s.take (s.length - (k + 1)) ++ '.' :: s.drop (s.length - (k + 1))

/-- Model of the float formatting `f"{price}"` used by `append_history`, on
the finite-decimal values the market returns. -/
def priceToString (q : ℚ) : String :=
  if q < 0 then ⟨'-' :: ratDecChars (-q)⟩ else ⟨ratDecChars q⟩

/-! ## Calendar arithmetic (model of `datetime` UTC timestamps) -/

/-- Gregorian leap year. -/
def isLeapYear (y : ℕ) : Bool := (y % 4 = 0 && y % 100 != 0) || y % 400 = 0

/-- Number of days of a month. -/
def daysInMonth (y m : ℕ) : ℕ :=
  if m = 2 then (if isLeapYear y then 29 else 28)
  else if m = 4 || m = 6 || m = 9 || m = 11 then 30
  else 31

/-- Days since 0000-03-01 of a civil date with `y ≥ 1` (era-based civil
calendar arithmetic). -/
def civilDays (y m d : ℕ) : ℕ :=
  let y' := if m ≤ 2 then y - 1 else y
  let era := y' / 400
  let yoe := y' % 400
  let mp := if 2 < m then m - 3 else m + 9
  let doy := (153 * mp + 2) / 5 + (d - 1)
  let doe := yoe * 365 + yoe / 4 - yoe / 100 + doy
  era * 146097 + doe

/-- Civil date `(year, month, day)` from days since 0000-03-01. -/
def civilFromDays (z : ℕ) : ℕ × ℕ × ℕ :=
  let era := z / 146097
  let doe := z % 146097
  let yoe := (doe - doe / 1460 + doe / 36524 - doe / 146096) / 365
  let y' := yoe + era * 400
  let doy := doe - (365 * yoe + yoe / 4 - yoe / 100)
  let mp := (5 * doy + 2) / 153
  let d := doy - (153 * mp + 2) / 5 + 1
  let m := if mp < 10 then mp + 3 else mp - 9
  (if m ≤ 2 then y' + 1 else y', m, d)

/-- Days between 0000-03-01 and the Unix epoch 1970-01-01. -/
def epochOffsetDays : ℕ := 719468

/-- Parse a one- or two-digit numeric field within the given bounds, as the
`strptime` directives `%m`, `%d`, `%H`, `%M`, `%S` do. -/
def parseNatIn (l : List Char) (lo hi : ℕ) : Option ℕ :=
  if (l.length = 1 ∨ l.length = 2) ∧ allDigits l then
    let n := digitsToNat l
    if lo ≤ n ∧ n ≤ hi then some n else none
  else none

/-- Model of `datetime.strptime(s, "%Y-%m-%d %H:%M:%S")` read as a UTC
instant, returned as Unix epoch seconds; `none` models the `ValueError`
that `strptime` or the `datetime` constructor raises. -/
def parseTs (s : String) : Option ℤ :=
  match splitOnChar ' ' s.data with
  | [ds, tsx] =>
    match splitOnChar '-' ds, splitOnChar ':' tsx with
    | [ys, ms, dds], [hs, ns, ss] =>
      if ys.length = 4 ∧ allDigits ys ∧ 1 ≤ digitsToNat ys then
        match parseNatIn ms 1 12, parseNatIn hs 0 23, parseNatIn ns 0 59,
            parseNatIn ss 0 59 with
        | some mo, some h, some mi, some sec =>
          match parseNatIn dds 1 (daysInMonth (digitsToNat ys) mo) with
          | some d =>
            some (((civilDays (digitsToNat ys) mo d : ℤ) - (epochOffsetDays : ℤ)) * 86400
              + ((h * 3600 + mi * 60 + sec : ℕ) : ℤ))
          | none => none
        | _, _, _, _ => none
      else none
    | _, _ => none
  | _ => none

/-- Model of `datetime.now(timezone.utc).strftime("%Y-%m-%d %H:%M:%S")` at
epoch time `t` (sub-second part truncated). -/
def formatTs (t : ℚ) : String :=
  let secs := t.floor.toNat
  let z := secs / 86400 + epochOffsetDays
  let sod := secs % 86400
  let c := civilFromDays z
  ⟨padChars 4 c.1 ++ '-' :: padChars 2 c.2.1 ++ '-' :: padChars 2 c.2.2
    ++ ' ' :: padChars 2 (sod / 3600) ++ ':' :: padChars 2 (sod % 3600 / 60)
    ++ ':' :: padChars 2 (sod % 60)⟩

/-! ## JSON documents, the price cache file, `load_json` / `save_json` -/

/-- Parsed JSON document, as `json.load` produces and `json.dump` consumes. -/
inductive JValue where
  | jnull
  | jbool (b : Bool)
  | jnum (q : ℚ)
  | jstr (s : String)
  | jarr (elems : List JValue)
  | jobj (fields : List (String × JValue))

/-- One price-cache entry, the dict `{"price": …, "last_update": …,
"avg_3hr": …}`; `none` models a key the dict does not carry (the code reads
every key through `dict.get` with a default). -/
structure CacheEntry where
  price : Option ℚ
  last_update : Option ℚ
  avg_3hr : Option ℚ
  deriving DecidableEq

/-- First match of a key among the fields of a JSON object. -/
def lookupJ : List (String × JValue) → String → Option JValue
  | [], _ => none
  | (k, v) :: rest, key => if k = key then some v else lookupJ rest key

/-- Numeric field of a JSON object. -/
def numField (fields : List (String × JValue)) (key : String) : Option ℚ :=
  match lookupJ fields key with
  | some (.jnum q) => some q
  | _ => none

/-- Field list contributed by one optional dict key. -/
def optField (key : String) : Option ℚ → List (String × JValue)
  | none => []
  | some q => [(key, .jnum q)]

/-- JSON document of one cache entry, as `json.dump` writes the dict. -/
def encodeEntry (e : CacheEntry) : JValue :=
  .jobj (optField "price" e.price ++ optField "last_update" e.last_update
    ++ optField "avg_3hr" e.avg_3hr)

/-- Reading the three fields of a cache entry back out of its JSON document
(the way `main` reads them through `entry.get`). -/
def decodeEntry : JValue → Option CacheEntry
  | .jobj fields =>
    some ⟨numField fields "price", numField fields "last_update", numField fields "avg_3hr"⟩
  | _ => none

/-- JSON document of the whole price cache. -/
def encodeCacheDoc (m : List (String × CacheEntry)) : JValue :=
  .jobj (m.map (fun p => (p.1, encodeEntry p.2)))

/-- Reading every entry of a persisted cache document back. -/
def decodeEntries : List (String × JValue) → Option (List (String × CacheEntry))
  | [] => some []
  | (k, v) :: rest =>
    match decodeEntry v, decodeEntries rest with
    | some e, some es => some ((k, e) :: es)
    | _, _ => none

/-- Reading a persisted cache document back as a cache mapping. -/
def decodeCacheDoc : JValue → Option (List (String × CacheEntry))
  | .jobj fields => decodeEntries fields
  | _ => none

/-- File system holding parsed JSON documents; a missing file is `none`. -/
def FileSys : Type := String → Option JValue

/-- Model of `load_json`: a missing (or unreadable) file behaves as `{}`. -/
def load_json (fs : FileSys) (path : String) : JValue :=
  match fs path with
  | none => .jobj []
  | some v => v

/-- Model of `save_json`: overwrite the document at `path`. -/
def save_json (fs : FileSys) (path : String) (v : JValue) : FileSys :=
  fun q => if q = path then some v else fs q

/-! ## `safe_get_json` -/

/-- Outcome of one `requests.get` attempt: a raised transport exception, or a
response with its status code and (for 200) the result of parsing its body
(`none` models an unparseable body). -/
inductive HttpAttempt where
  | exn
  | resp (status : ℕ) (body : Option JValue)

/-- Retry loop of `safe_get_json`: `att n` is the outcome of the `n`-th
attempt, the fuel is the number of attempts left. Transport exceptions, 429
and 5xx retry; 200 returns the parsed body (or `none` if parsing failed);
every other status returns `none` at once. -/
def safeGetJsonGo (att : ℕ → HttpAttempt) : ℕ → ℕ → Option JValue
  | 0, _ => none
  | fuel + 1, k =>
    match att k with
    | .exn => safeGetJsonGo att fuel (k + 1)
    | .resp status body =>
      if status = 200 then body
      else if status = 429 then safeGetJsonGo att fuel (k + 1)
      else if 500 ≤ status ∧ status < 600 then safeGetJsonGo att fuel (k + 1)
      else none

/-- Model of `safe_get_json` (attempts are numbered from 1, as in the
Python `range(1, max_retries + 1)`). -/
def safe_get_json (att : ℕ → HttpAttempt) (max_retries : ℕ) : Option JValue :=
  safeGetJsonGo att max_retries 1

/-! ## `fetch_price_for_item` -/

/-- Remove every occurrence of a character; model of
`str.replace(c, "")` for a one-character pattern. -/
def removeChar (c : Char) (l : List Char) : List Char := l.filter (fun x => x != c)

/-- Model of `str.replace("INR", "")`: left-to-right removal of
non-overlapping occurrences. -/
def removeINR : List Char → List Char
  | 'I' :: 'N' :: 'R' :: rest => removeINR rest
  | c :: rest => c :: removeINR rest
  | [] => []

/-- The cleaning step of `fetch_price_for_item`:
`price_str.replace("₹", "").replace("INR", "").replace(",", "").strip()`. -/
def cleanPrice (s : String) : String :=
  strTrim ⟨removeChar ',' (removeINR (removeChar '₹' s.data))⟩

/-- First match of a key among the textual fields of the price document. -/
def dictGetStr : List (String × String) → String → Option String
  | [], _ => none
  | (k, v) :: rest, key => if k = key then some v else dictGetStr rest key

/-- Model of `fetch_price_for_item` applied to the fetched `priceoverview`
document, given as the dictionary of its textual fields (`none` models a
failed fetch; the falsiness test `if not data` also rejects `{}`). -/
def fetch_price_for_item (data : Option (List (String × String))) : Option ℚ :=
  match data with
  | none => none
  | some fields =>
    if fields.isEmpty then none
    else
      let price_str :=
        match dictGetStr fields "lowest_price" with
        | some s => if s ≠ "" then some s else dictGetStr fields "median_price"
        | none => dictGetStr fields "median_price"
      match price_str with
      | none => none
      | some s => if s = "" then none else parseFloat (cleanPrice s)

/-! ## The history ledger: `append_history` and `get_3hr_avg` -/

/-- Python exceptions that can escape to a caller in this program. -/
inductive PyErr where
  | zeroDivision
  | valueError
  deriving DecidableEq

/-- Python division: raises `ZeroDivisionError` on a zero divisor. -/
def pyDiv (a b : ℚ) : Except PyErr ℚ :=
  if b = 0 then .error .zeroDivision else .ok (a / b)

/-- The CSV record `f"{ts},{item},{price}"` that `append_history` writes
(no quoting or escaping of the item text). -/
def historyLine (now : ℚ) (item : String) (price : ℚ) : String :=
  ⟨(formatTs now).data ++ ',' :: (item.data ++ ',' :: (priceToString price).data)⟩

/-- Model of `append_history`: append one record to the ledger's data lines
(the header line written at file creation is implicit: reading always skips
it, so the ledger state is its list of data lines, `none` = no file yet). -/
def append_history (item : String) (price : ℚ) (now : ℚ) (ledger : Option (List String)) :
    List String :=
  ledger.getD [] ++ [historyLine now item price]

/-- One line of the read-back loop of `get_3hr_avg`. The three-way unpacking
of `line.strip().split(",")` is outside the `try`, so a line that does not
split into exactly three fields raises `ValueError`; an unparseable
timestamp or price is caught by the `except` and the line skipped
(`.ok none`); a record of `item` dated at or after `cutoff` contributes its
price (`.ok (some p)`). -/
def scanStep (item : String) (cutoff : ℚ) (l : String) : Except PyErr (Option ℚ) :=
  match splitCommas (strTrim l) with
  | [ts_str, line_item, price_str] =>
    if strTrim line_item = item then
      match parseTs ts_str with
      | some t =>
        if (t : ℚ) ≥ cutoff then
          match parseFloat price_str with
          | some p => .ok (some p)
          | none => .ok none
        else .ok none
      | none => .ok none
    else .ok none
  | _ => .error .valueError

/-- Read-back loop of `get_3hr_avg`: collect the prices of the records of
`item` dated at or after `cutoff`, propagating the `ValueError` of a line
that does not split into three fields. -/
def scanLedger (lines : List String) (item : String) (cutoff : ℚ) : Except PyErr (List ℚ) :=
  match lines with
  | [] => .ok []
  | l :: rest =>
    match scanStep item cutoff l with
    | .error e => .error e
    | .ok none => scanLedger rest item cutoff
    | .ok (some p) =>
      match scanLedger rest item cutoff with
      | .error e => .error e
      | .ok ps => .ok (p :: ps)

/-- Model of `get_3hr_avg`: `none` when the ledger file does not exist or no
observation of `item` lies in the trailing three hours, otherwise the
arithmetic mean of the in-window observations. -/
def get_3hr_avg (ledger : Option (List String)) (item : String) (now : ℚ) :
    Except PyErr (Option ℚ) :=
  match ledger with
  | none => .ok none
  | some lines =>
    match scanLedger lines item (now - 3 * 3600) with
    | .error e => .error e
    | .ok ps => .ok (if ps.isEmpty then none else some (ps.sum / (ps.length : ℚ)))

/-! ## The per-item loop of `main` -/

/-- An alert message delivered to a Discord channel, with the data the
message interpolates. -/
structure Alert where
  baseline : ℚ
  price : ℚ
  change : ℚ
  up : Bool
  deriving DecidableEq

/-- Instant-change stage of `main` (bot.py lines 209–225): the baseline is
the cached price (defaulting to the new price when absent, and replaced by
the new price when it equals 0); an alert fires at `|change| ≥ 0.10`,
direction up exactly when the change is positive. -/
def instantStage (cached : Option ℚ) (price : ℚ) : Except PyErr (List Alert) :=
  let old0 := cached.getD price
  let old := if old0 = 0 then price else old0
  match pyDiv (price - old) old with
  | .error e => .error e
  | .ok c => .ok (if |c| ≥ 1 / 10 then [⟨old, price, c, decide (0 < c)⟩] else [])

/-- Three-hour-average stage of `main` (bot.py lines 227–245): the baseline
is the ledger window average, falling back to the current price when there
is none; an alert fires at `|change| ≥ 0.05`. Returns the average that
`main` then stores in the cache entry. -/
def windowStage (ledger : Option (List String)) (item : String) (now price : ℚ) :
    Except PyErr (ℚ × List Alert) :=
  match get_3hr_avg ledger item now with
  | .error e => .error e
  | .ok avg3 =>
    let avg := avg3.getD price
    match pyDiv (price - avg) avg with
    | .error e => .error e
    | .ok c => .ok (avg, if |c| ≥ 1 / 20 then [⟨avg, price, c, decide (0 < c)⟩] else [])

/-- Staleness gate of `main` (bot.py lines 193–199): skip the item when its
entry's `last_update` is truthy (nonzero) and less than one hour old. -/
def staleSkip (entry : Option CacheEntry) (now : ℚ) : Bool :=
  let lu := (entry.map (fun e => e.last_update.getD 0)).getD 0
  decide (lu ≠ 0) && decide ((now - lu) / 3600 < 1)

/-- State `main` threads through the per-item loop: the price-cache mapping
and the history ledger. -/
structure BotState where
  cache : String → Option CacheEntry
  ledger : Option (List String)

/-- Overwrite one item's cache entry (`prices[item] = {...}`). -/
def updateCache (c : String → Option CacheEntry) (item : String) (e : CacheEntry) :
    String → Option CacheEntry :=
  fun j => if j = item then some e else c j

/-- One iteration of the per-item loop of `main` (bot.py lines 191–249):
staleness gate, fetch, ledger append, instant-change alert, window alert,
cache write. `fetchPrice` is the composition of the network fetch and the
price extractor (`none` = failed fetch), `now` the wall clock of this
iteration. Returns the new state with the instant and window alerts sent,
or the Python exception that escapes the iteration. -/
def processItem (fetchPrice : String → Option ℚ) (now : ℚ) (item : String) (st : BotState) :
    Except PyErr (BotState × List Alert × List Alert) :=
  let entry := st.cache item
  if staleSkip entry now then .ok (st, [], [])
  else
    match fetchPrice item with
    | none => .ok (st, [], [])
    | some price =>
      let lines := append_history item price now st.ledger
      match instantStage (entry.bind (fun e => e.price)) price with
      | .error e => .error e
      | .ok ia =>
        match windowStage (some lines) item now price with
        | .error e => .error e
        | .ok (avg, wa) =>
          .ok (⟨updateCache st.cache item ⟨some price, some now, some avg⟩, some lines⟩, ia, wa)

/-- The whole per-item loop of `main`: each step is an item paired with the
wall-clock time of its iteration. There is no exception handler around the
loop body, so an exception escaping one iteration aborts all remaining
items. -/
def runBot (fetchPrice : String → Option ℚ) (steps : List (String × ℚ)) (st : BotState) :
    Except PyErr (BotState × List Alert × List Alert) :=
  match steps with
  | [] => .ok (st, [], [])
  | (item, now) :: rest =>
    match processItem fetchPrice now item st with
    | .error e => .error e
    | .ok (st1, ia1, wa1) =>
      match runBot fetchPrice rest st1 with
      | .error e => .error e
      | .ok (st2, ia2, wa2) => .ok (st2, ia1 ++ ia2, wa1 ++ wa2)

/-! ## Helper lemmas -/

/-- The observation a well-formed ledger line contributes for `item` within
the window starting at `cutoff`: its price when the line is a record of
`item` with a parseable timestamp at or after `cutoff` and a parseable
price, nothing otherwise. -/
def lineObs (item : String) (cutoff : ℚ) (l : String) : Option ℚ :=
  match splitCommas (strTrim l) with
  | [ts_str, line_item, price_str] =>
    if strTrim line_item = item then
      match parseTs ts_str with
      | some t => if (t : ℚ) ≥ cutoff then parseFloat price_str else none
      | none => none
    else none
  | _ => none

theorem scanStep_of_three (item : String) (cutoff : ℚ) (l : String)
    (h : (splitCommas (strTrim l)).length = 3) :
    scanStep item cutoff l = .ok (lineObs item cutoff l) := by
  obtain ⟨a, b, c, habc⟩ := List.length_eq_three.mp h
  unfold scanStep lineObs
  rw [habc]
  by_cases hb : strTrim b = item
  · simp only [hb, if_true]
    cases parseTs a with
    | none => rfl
    | some t =>
      by_cases ht : (t : ℚ) ≥ cutoff
      · simp only [ht, if_true]
        cases parseFloat c <;> rfl
      · simp [ht]
  · simp [hb]

theorem scanLedger_eq_filterMap (lines : List String) (item : String) (cutoff : ℚ)
    (h : ∀ l ∈ lines, (splitCommas (strTrim l)).length = 3) :
    scanLedger lines item cutoff = .ok (lines.filterMap (lineObs item cutoff)) := by
  induction lines with
  | nil => rfl
  | cons l rest ih =>
    have hl := scanStep_of_three item cutoff l (h l (List.mem_cons_self l rest))
    have hrest := ih (fun x hx => h x (List.mem_cons_of_mem l hx))
    simp only [scanLedger, hl, hrest, List.filterMap_cons]
    cases lineObs item cutoff l <;> rfl

theorem scanLedger_append (xs ys : List String) (item : String) (cutoff : ℚ) :
    scanLedger (xs ++ ys) item cutoff =
      match scanLedger xs item cutoff with
      | .error e => .error e
      | .ok a =>
        match scanLedger ys item cutoff with
        | .error e => .error e
        | .ok b => .ok (a ++ b) := by
  induction xs with
  | nil =>
    simp only [List.nil_append, scanLedger]
    cases scanLedger ys item cutoff <;> rfl
  | cons l rest ih =>
    show (match scanStep item cutoff l with
        | .error e => .error e
        | .ok none => scanLedger (rest ++ ys) item cutoff
        | .ok (some p) =>
          match scanLedger (rest ++ ys) item cutoff with
          | .error e => .error e
          | .ok ps => .ok (p :: ps) : Except PyErr (List ℚ)) =
      (match (match scanStep item cutoff l with
        | .error e => .error e
        | .ok none => scanLedger rest item cutoff
        | .ok (some p) =>
          match scanLedger rest item cutoff with
          | .error e => .error e
          | .ok ps => .ok (p :: ps) : Except PyErr (List ℚ)) with
        | .error e => .error e
        | .ok a =>
          match scanLedger ys item cutoff with
          | .error e => .error e
          | .ok b => .ok (a ++ b) : Except PyErr (List ℚ))
    rw [ih]
    cases scanStep item cutoff l with
    | error e => rfl
    | ok o =>
      cases o with
      | none => rfl
      | some p =>
        cases scanLedger rest item cutoff with
        | error e => rfl
        | ok a => cases scanLedger ys item cutoff <;> rfl

theorem splitOnChar_of_not_mem (sep : Char) (l : List Char) (h : sep ∉ l) :
    splitOnChar sep l = [l] := by
  induction l with
  | nil => rfl
  | cons c rest ih =>
    have hc : ¬(c = sep) := fun hcs => h (hcs ▸ List.mem_cons_self c rest)
    have hr : sep ∉ rest := fun hm => h (List.mem_cons_of_mem c hm)
    simp only [splitOnChar, if_neg hc, ih hr]

theorem splitOnChar_append (sep : Char) (a rest : List Char) (h : sep ∉ a) :
    splitOnChar sep (a ++ sep :: rest) = a :: splitOnChar sep rest := by
  induction a with
  | nil => simp [splitOnChar]
  | cons c a' ih =>
    have hc : ¬(c = sep) := fun hcs => h (hcs ▸ List.mem_cons_self c a')
    have ha : sep ∉ a' := fun hm => h (List.mem_cons_of_mem c hm)
    have ih' : splitOnChar sep (a'.append (sep :: rest)) = a' :: splitOnChar sep rest := ih ha
    simp only [List.cons_append, splitOnChar, if_neg hc, ih']

theorem safeGetJsonGo_none_of_retryable (att : ℕ → HttpAttempt) :
    ∀ (fuel k : ℕ),
      (∀ j, k ≤ j → j < k + fuel →
        att j = .exn ∨ ∃ s b, att j = .resp s b ∧ (s = 429 ∨ (500 ≤ s ∧ s < 600))) →
      safeGetJsonGo att fuel k = none := by
  intro fuel
  induction fuel with
  | zero => intro k _; rfl
  | succ n ih =>
    intro k h
    have hk := h k (le_refl k) (by omega)
    have hrest : ∀ j, k + 1 ≤ j → j < (k + 1) + n →
        att j = .exn ∨ ∃ s b, att j = .resp s b ∧ (s = 429 ∨ (500 ≤ s ∧ s < 600)) :=
      fun j h1 h2 => h j (by omega) (by omega)
    rcases hk with hexn | ⟨s, b, hresp, hs⟩
    · simp only [safeGetJsonGo, hexn]
      exact ih (k + 1) hrest
    · simp only [safeGetJsonGo, hresp]
      rcases hs with h429 | h5xx
      · subst h429
        simp only [if_neg (by omega : ¬(429 = 200)), if_pos rfl]
        exact ih (k + 1) hrest
      · have hne200 : ¬(s = 200) := by omega
        have hne429 : ¬(s = 429) := by omega
        simp only [if_neg hne200, if_neg hne429, if_pos h5xx]
        exact ih (k + 1) hrest

theorem decodeEntry_encodeEntry (e : CacheEntry) : decodeEntry (encodeEntry e) = some e := by
  obtain ⟨op, ou, oa⟩ := e
  cases op <;> cases ou <;> cases oa <;> rfl

theorem decodeEntries_encode (m : List (String × CacheEntry)) :
    decodeEntries (m.map (fun p => (p.1, encodeEntry p.2))) = some m := by
  induction m with
  | nil => rfl
  | cons p rest ih =>
    simp only [List.map_cons, decodeEntries, decodeEntry_encodeEntry, ih]

theorem scanLedger_singleton (item l : String) (cutoff p : ℚ)
    (h : scanStep item cutoff l = .ok (some p)) :
    scanLedger [l] item cutoff = .ok [p] := by
  simp only [scanLedger, h]

theorem processItem_skip (f : String → Option ℚ) (now : ℚ) (item : String) (st : BotState)
    (e : CacheEntry) (hc : st.cache item = some e) (h1 : e.last_update.getD 0 ≠ 0)
    (h2 : (now - e.last_update.getD 0) / 3600 < 1) :
    processItem f now item st = .ok (st, [], []) := by
  have hskip : staleSkip (st.cache item) now = true := by
    simp only [staleSkip, hc, Option.map_some, Option.getD_some]
    simp [h1, h2]
  simp only [processItem, hskip, if_true]

/-! ## Claim theorems -/

/-- C6: an item whose cache entry carries a nonzero `last_update` less than
one hour (the staleness interval) before `now` is skipped entirely: the
iteration issues no fetch (the fetch oracle is irrelevant), appends nothing
to the ledger, and returns the state unchanged with no alerts; consequently
a run in which every item is that fresh is a complete no-op. -/
theorem c6_stale_skip :
    (∀ (f f2 : String → Option ℚ) (now : ℚ) (item : String) (st : BotState) (e : CacheEntry),
      st.cache item = some e →
      e.last_update.getD 0 ≠ 0 →
      (now - e.last_update.getD 0) / 3600 < 1 →
      processItem f now item st = .ok (st, [], []) ∧
        processItem f now item st = processItem f2 now item st) ∧
    (∀ (f : String → Option ℚ) (steps : List (String × ℚ)) (st : BotState),
      (∀ pr ∈ steps, ∃ e, st.cache pr.1 = some e ∧ e.last_update.getD 0 ≠ 0 ∧
        (pr.2 - e.last_update.getD 0) / 3600 < 1) →
      runBot f steps st = .ok (st, [], [])) := by
  constructor
  · intro f f2 now item st e hc h1 h2
    exact ⟨processItem_skip f now item st e hc h1 h2,
      (processItem_skip f now item st e hc h1 h2).trans
        (processItem_skip f2 now item st e hc h1 h2).symm⟩
  · intro f steps st h
    induction steps with
    | nil => rfl
    | cons pr rest ih =>
      obtain ⟨e, hc, h1, h2⟩ := h pr (List.mem_cons_self pr rest)
      have hrest := ih (fun x hx => h x (List.mem_cons_of_mem pr hx))
      obtain ⟨item, now⟩ := pr
      simp only [runBot, processItem_skip f now item st e hc h1 h2, hrest, List.nil_append]

/-- C6 witness: a concrete fresh item is skipped with no state change, for
two different fetch oracles, and a one-item run over it is a no-op. -/
theorem c6_stale_skip_witness :
    processItem (fun _ => some 7) 200 "A"
        ⟨fun j => if j = "A" then some ⟨some 5, some 100, none⟩ else none, none⟩ =
      .ok (⟨fun j => if j = "A" then some ⟨some 5, some 100, none⟩ else none, none⟩, [], []) ∧
    processItem (fun _ => some 7) 200 "A"
        ⟨fun j => if j = "A" then some ⟨some 5, some 100, none⟩ else none, none⟩ =
      processItem (fun _ => none) 200 "A"
        ⟨fun j => if j = "A" then some ⟨some 5, some 100, none⟩ else none, none⟩ ∧
    runBot (fun _ => some 7) [("A", 200)]
        ⟨fun j => if j = "A" then some ⟨some 5, some 100, none⟩ else none, none⟩ =
      .ok (⟨fun j => if j = "A" then some ⟨some 5, some 100, none⟩ else none, none⟩, [], []) := by
  refine ⟨?_, ?_, ?_⟩
  · exact (c6_stale_skip.1 (fun _ => some 7) (fun _ => none) 200 "A" _ ⟨some 5, some 100, none⟩
      rfl (by norm_num) (by norm_num)).1
  · exact (c6_stale_skip.1 (fun _ => some 7) (fun _ => none) 200 "A" _ ⟨some 5, some 100, none⟩
      rfl (by norm_num) (by norm_num)).2
  · refine c6_stale_skip.2 (fun _ => some 7) [("A", 200)] _ ?_
    intro pr hpr
    simp only [List.mem_singleton] at hpr
    subst hpr
    exact ⟨⟨some 5, some 100, none⟩, rfl, by norm_num, by norm_num⟩

/-- C10: a cache entry whose `last_update` key is missing or holds 0 is
treated by the staleness gate exactly like a missing entry (the value 0 is
falsy): the gate never skips the item, whatever `now` and whatever the
entry's price fields hold. -/
theorem c10_zero_last_update (e : CacheEntry) (now : ℚ)
    (h : e.last_update = none ∨ e.last_update = some 0) :
    staleSkip (some e) now = false ∧ staleSkip (some e) now = staleSkip none now := by
  rcases h with h | h <;> simp [staleSkip, h]

/-- C10 witness: an entry with a price recorded a moment ago but a missing
`last_update` is still eligible at `now = 100`. -/
theorem c10_zero_last_update_witness :
    staleSkip (some ⟨some 5, none, none⟩) 100 = false ∧
      staleSkip (some ⟨some 5, none, none⟩) 100 = staleSkip none 100 :=
  c10_zero_last_update ⟨some 5, none, none⟩ 100 (Or.inl rfl)

/-- C9: saving the cache document for any cache mapping and loading it back
from the same path yields a document that decodes to the identical mapping:
every item keeps identical `price`, `last_update` and `avg_3hr` values
(fields absent from an entry stay absent). -/
theorem c9_cache_round_trip (m : List (String × CacheEntry)) (fs : FileSys) (path : String) :
    decodeCacheDoc (load_json (save_json fs path (encodeCacheDoc m)) path) = some m := by
  have hload : load_json (save_json fs path (encodeCacheDoc m)) path = encodeCacheDoc m := by
    simp [load_json, save_json]
  rw [hload]
  simp only [decodeCacheDoc, encodeCacheDoc, decodeEntries_encode]

/-- C7: the resilient fetcher (i) returns failure at once, with no further
attempt consulted, on any status other than 200/429/5xx, (ii) returns
failure at once on a 200 response whose body does not parse, and (iii)
returns failure after exhausting the attempt ceiling of 6 when every
attempt is retryable (transport exception, 429, or 5xx). Its result type is
`Option JValue`: every path yields parsed data or `none`, never an
exception. -/
theorem c7_fetcher_failures :
    (∀ (att : ℕ → HttpAttempt) (fuel k status : ℕ) (body : Option JValue),
      att k = .resp status body → status ≠ 200 → status ≠ 429 →
      ¬(500 ≤ status ∧ status < 600) →
      safeGetJsonGo att (fuel + 1) k = none) ∧
    (∀ (att : ℕ → HttpAttempt) (fuel k : ℕ),
      att k = .resp 200 none → safeGetJsonGo att (fuel + 1) k = none) ∧
    (∀ att : ℕ → HttpAttempt,
      (∀ j, 1 ≤ j → j ≤ 6 →
        att j = .exn ∨ ∃ s b, att j = .resp s b ∧ (s = 429 ∨ (500 ≤ s ∧ s < 600))) →
      safe_get_json att 6 = none) := by
  refine ⟨?_, ?_, ?_⟩
  · intro att fuel k status body hatt h200 h429 h5xx
    simp only [safeGetJsonGo, hatt, if_neg h200, if_neg h429, if_neg h5xx]
  · intro att fuel k hatt
    simp [safeGetJsonGo, hatt]
  · intro att h
    exact safeGetJsonGo_none_of_retryable att 6 1 (fun j h1 h2 => h j h1 (by omega))

/-- C7 witness: a 404 on the first attempt, a 200 with an unparseable body,
and six retryable attempts all produce `none` from `safe_get_json` with the
default ceiling of 6. -/
theorem c7_fetcher_failures_witness :
    safe_get_json (fun _ => .resp 404 (some (.jnum 1))) 6 = none ∧
    safe_get_json (fun _ => .resp 200 none) 6 = none ∧
    safe_get_json (fun _ => .exn) 6 = none := by
  refine ⟨?_, ?_, ?_⟩
  · exact c7_fetcher_failures.1 (fun _ => .resp 404 (some (.jnum 1))) 5 1 404 (some (.jnum 1))
      rfl (by norm_num) (by norm_num) (by omega)
  · exact c7_fetcher_failures.2.1 (fun _ => .resp 200 none) 5 1 rfl
  · exact c7_fetcher_failures.2.2 (fun _ => .exn) (fun j _ _ => Or.inl rfl)

/-- C2 counterexample: with a cached price of 0 and a newly fetched price
of 0, the substitution leaves the baseline at 0 and the instant-change
computation raises `ZeroDivisionError` instead of yielding a 0% change —
the whole iteration aborts with the exception. -/
theorem c2_counterexample :
    processItem (fun _ => some 0) 0 "AK"
        ⟨fun j => if j = "AK" then some ⟨some 0, some 0, none⟩ else none, none⟩ =
      .error .zeroDivision := by
  rfl

/-- C2 (amended): for a cached price `p0` and fetched price `p` that are not
both zero, the instant signal computes the claim's percent change
`(p - baseline) / baseline` with `baseline` the cached price, the new price
substituted when the cached price is 0 (making the change 0); the alert
list is nonempty exactly when `|change| ≥ 0.10`, with direction up exactly
when the change is positive; in particular a zero cached price never
produces an instant alert. When `p0 = p = 0` the stage instead raises
`ZeroDivisionError` (see the counterexample). -/
theorem c2_instant_signal (p0 p : ℚ) (h : p0 ≠ 0 ∨ p ≠ 0) :
    (instantStage (some p0) p =
      .ok (if |(p - (if p0 = 0 then p else p0)) / (if p0 = 0 then p else p0)| ≥ 1 / 10
        then [⟨(if p0 = 0 then p else p0), p,
          (p - (if p0 = 0 then p else p0)) / (if p0 = 0 then p else p0),
          decide (0 < (p - (if p0 = 0 then p else p0)) / (if p0 = 0 then p else p0))⟩]
        else [])) ∧
    (p0 = 0 → instantStage (some p0) p = .ok []) := by
  by_cases hp0 : p0 = 0
  · subst hp0
    have hp : p ≠ 0 := h.resolve_left (fun hh => hh rfl)
    constructor
    · simp [instantStage, pyDiv, hp, sub_self, zero_div]
    · intro _
      simp [instantStage, pyDiv, hp, sub_self, zero_div]
  · constructor
    · simp [instantStage, pyDiv, hp0]
    · intro hh
      exact absurd hh hp0

/-- C2 witness: prior price 100 and new price 111 give an 11% change and an
instant alert with direction up; prior price 0 and new price 50 give the
substituted baseline 50, a 0% change, and no instant alert. -/
theorem c2_instant_signal_witness :
    instantStage (some 100) 111 = .ok [⟨100, 111, 11 / 100, true⟩] ∧
    instantStage (some 0) 50 = .ok [] := by
  constructor
  · exact ((c2_instant_signal 100 111 (Or.inl (by norm_num))).1).trans
      (by with_unfolding_all rfl)
  · exact (c2_instant_signal 0 50 (Or.inr (by norm_num))).2 rfl

/-- C8 counterexample: a document whose `lowest_price` field is present but
empty is not handled by parsing the (empty) lowest price — which would fail
and signal no data — but by falling through to `median_price`, because the
Python `or` treats the empty string as absent. -/
theorem c8_counterexample :
    fetch_price_for_item (some [("lowest_price", ""), ("median_price", "₹50.00")]) = some 50 ∧
      parseFloat (cleanPrice "") = none := by
  constructor <;> with_unfolding_all rfl

/-- C8 (amended): the extractor uses `lowest_price` when present and
nonempty; it falls back to `median_price` when `lowest_price` is absent
*or empty* (Python `or` falsiness); it signals no data when the chosen
value is absent or empty, and also when numeric parsing of the cleaned
text fails (the chosen value is parsed after stripping "₹", "INR", ","
and whitespace, as the concrete conjunct shows). -/
theorem c8_price_extractor :
    (∀ (fields : List (String × String)) (s : String),
      dictGetStr fields "lowest_price" = some s → s ≠ "" →
      fetch_price_for_item (some fields) = parseFloat (cleanPrice s)) ∧
    (∀ (fields : List (String × String)) (t : String),
      (dictGetStr fields "lowest_price" = none ∨ dictGetStr fields "lowest_price" = some "") →
      dictGetStr fields "median_price" = some t →
      fetch_price_for_item (some fields) = if t = "" then none else parseFloat (cleanPrice t)) ∧
    (∀ fields : List (String × String),
      (dictGetStr fields "lowest_price" = none ∨ dictGetStr fields "lowest_price" = some "") →
      dictGetStr fields "median_price" = none →
      fetch_price_for_item (some fields) = none) ∧
    fetch_price_for_item none = none ∧
    cleanPrice " ₹1,234.56 " = "1234.56" := by
  have hne : ∀ (fields : List (String × String)) (k : String) (v : String),
      dictGetStr fields k = some v → fields.isEmpty = false := by
    intro fields k v hv
    cases fields with
    | nil => simp [dictGetStr] at hv
    | cons a rest => rfl
  refine ⟨?_, ?_, ?_, rfl, by rfl⟩
  · intro fields s hs hsne
    simp only [fetch_price_for_item, hne fields _ s hs, Bool.false_eq_true, if_false, hs,
      if_pos hsne, if_neg hsne]
  · intro fields t hlow hmed
    rcases hlow with hlow | hlow
    · simp only [fetch_price_for_item, hne fields _ t hmed, Bool.false_eq_true, if_false,
        hlow, hmed]
    · simp only [fetch_price_for_item, hne fields _ t hmed, Bool.false_eq_true, if_false,
        hlow, hmed, ne_eq, not_true_eq_false, if_false, ite_not]
  · intro fields hlow hmed
    cases hfe : fields.isEmpty
    · rcases hlow with hlow | hlow
      · simp only [fetch_price_for_item, hfe, Bool.false_eq_true, if_false, hlow, hmed]
      · simp only [fetch_price_for_item, hfe, Bool.false_eq_true, if_false, hlow, hmed,
          ne_eq, not_true_eq_false, if_false]
    · simp only [fetch_price_for_item, hfe, if_true]

/-- C8 witness: a present nonempty `lowest_price` of "₹1,234.56" is cleaned
and parsed to 1234.56; an absent `lowest_price` with `median_price` "₹50.00"
yields 50; a document with neither field yields no data. -/
theorem c8_price_extractor_witness :
    fetch_price_for_item (some [("lowest_price", "₹1,234.56"), ("median_price", "₹9.00")]) =
      parseFloat (cleanPrice "₹1,234.56") ∧
    fetch_price_for_item (some [("median_price", "₹50.00")]) =
      (if "₹50.00" = "" then none else parseFloat (cleanPrice "₹50.00")) ∧
    fetch_price_for_item (some [("volume", "3")]) = none := by
  refine ⟨?_, ?_, ?_⟩
  · exact c8_price_extractor.1 [("lowest_price", "₹1,234.56"), ("median_price", "₹9.00")]
      "₹1,234.56" rfl (by decide)
  · exact c8_price_extractor.2.1 [("median_price", "₹50.00")] "₹50.00" (Or.inl rfl) rfl
  · exact c8_price_extractor.2.2.1 [("volume", "3")] (Or.inl rfl) rfl

/-- C5 counterexample: the record `append_history` writes for the item
`"a,b"` (a name containing the field delimiter) splits back into four
fields, not three — no neutralization of delimiter characters happens. -/
theorem c5_counterexample :
    (splitCommas (strTrim (historyLine 0 "a,b" 1))).length = 4 := by
  with_unfolding_all rfl

/-- C5 (amended): the appended record consists of the three fields
timestamp, item, price joined by commas with no neutralization of the
item's characters: when the item text (and the rendered timestamp and
price) contain no comma the record splits back into exactly the three
fields, but an item containing a comma yields more than three fields (see
the counterexample). -/
theorem c5_three_fields (now : ℚ) (item : String) (p : ℚ)
    (h1 : ',' ∉ (formatTs now).data) (h2 : ',' ∉ item.data)
    (h3 : ',' ∉ (priceToString p).data)
    (h4 : strTrim (historyLine now item p) = historyLine now item p) :
    splitCommas (strTrim (historyLine now item p)) = [formatTs now, item, priceToString p] := by
  rw [h4]
  show ((splitOnChar ','
    ((formatTs now).data ++ ',' :: (item.data ++ ',' :: (priceToString p).data))).map
      (fun l => (⟨l⟩ : String))) = _
  rw [splitOnChar_append ',' _ _ h1, splitOnChar_append ',' _ _ h2,
    splitOnChar_of_not_mem ',' _ h3]
  rfl

/-- C5 witness: the record for item "AK" at the epoch with price 10 splits
back into exactly its three fields. -/
theorem c5_three_fields_witness :
    splitCommas (strTrim (historyLine 0 "AK" 10)) = [formatTs 0, "AK", priceToString 10] :=
  c5_three_fields 0 "AK" 10 (by with_unfolding_all decide) (by with_unfolding_all decide)
    (by with_unfolding_all decide) (by with_unfolding_all decide)

set_option maxHeartbeats 3200000 in
/-- C3 counterexample: the spec's scenario C contradicts the code. With the
three in-window prior observations [100, 100, 100] and current price 106,
the window average is computed *after* appending the current observation,
so it is (100+100+100+106)/4 = 101.5, not 100; the change is ≈ 4.43% < 5%
and no window alert fires (the processed item sends no alert at all). -/
theorem c3_counterexample :
    get_3hr_avg (some ["2025-06-01 00:00:00,AK,100.0", "2025-06-01 00:10:00,AK,100.0",
        "2025-06-01 00:20:00,AK,100.0", "2025-06-01 01:00:00,AK,106.0"]) "AK" 1748739600 =
      .ok (some (203 / 2)) ∧
    (processItem (fun _ => some 106) 1748739600 "AK"
        ⟨fun j => if j = "AK" then some ⟨some 106, some 0, none⟩ else none,
          some ["2025-06-01 00:00:00,AK,100.0", "2025-06-01 00:10:00,AK,100.0",
            "2025-06-01 00:20:00,AK,100.0"]⟩).map
      (fun r => (r.2.1, r.2.2)) = .ok ([], []) := by
  constructor <;> with_unfolding_all rfl

/-- C3 (amended): (i) on a ledger every line of which splits into three
fields, the window baseline is the arithmetic mean of the observations of
the item whose timestamp lies in the trailing three hours of `now` (the
per-line contribution is `lineObs`; in `main` the scanned ledger already
contains the just-appended observation, so the mean includes it — which is
why scenario C yields 101.5, see the counterexample); (ii) with no in-window
observation the current (nonzero) price is used as the average, giving zero
delta and no alert; (iii) with average `a ≠ 0` the window alert fires
exactly when `|(price - a) / a| ≥ 0.05`. -/
theorem c3_window_signal :
    (∀ (lines : List String) (item : String) (now : ℚ),
      (∀ l ∈ lines, (splitCommas (strTrim l)).length = 3) →
      get_3hr_avg (some lines) item now =
        .ok (if (lines.filterMap (lineObs item (now - 3 * 3600))).isEmpty then none
          else some ((lines.filterMap (lineObs item (now - 3 * 3600))).sum /
            ((lines.filterMap (lineObs item (now - 3 * 3600))).length : ℚ)))) ∧
    (∀ (ledger : Option (List String)) (item : String) (now p : ℚ),
      get_3hr_avg ledger item now = .ok none → p ≠ 0 →
      windowStage ledger item now p = .ok (p, [])) ∧
    (∀ (ledger : Option (List String)) (item : String) (now p a : ℚ),
      get_3hr_avg ledger item now = .ok (some a) → a ≠ 0 →
      windowStage ledger item now p =
        .ok (a, if |(p - a) / a| ≥ 1 / 20
          then [⟨a, p, (p - a) / a, decide (0 < (p - a) / a)⟩] else [])) := by
  refine ⟨?_, ?_, ?_⟩
  · intro lines item now h
    simp only [get_3hr_avg, scanLedger_eq_filterMap lines item (now - 3 * 3600) h]
  · intro ledger item now p havg hp
    simp only [windowStage, havg, Option.getD_none]
    rw [show pyDiv (p - p) p = .ok 0 by simp [pyDiv, hp, sub_self, zero_div]]
    norm_num
  · intro ledger item now p a havg ha
    simp only [windowStage, havg, Option.getD_some, pyDiv, if_neg ha]

/-- C3 witness: a one-line ledger gives the mean of its single in-window
observation; an absent ledger falls back to the current price with no
alert; an average of 10 against a current price of 11 is a +10% change and
fires the window alert. -/
theorem c3_window_signal_witness :
    get_3hr_avg (some ["1970-01-01 00:00:00,A,10.0"]) "A" 0 = .ok (some 10) ∧
    windowStage none "A" 0 5 = .ok (5, []) ∧
    windowStage (some ["1970-01-01 00:00:00,A,10.0"]) "A" 0 11 =
      .ok (10, [⟨10, 11, 1 / 10, true⟩]) := by
  refine ⟨?_, ?_, ?_⟩
  · exact (c3_window_signal.1 ["1970-01-01 00:00:00,A,10.0"] "A" 0
      (by with_unfolding_all decide)).trans (by with_unfolding_all rfl)
  · exact c3_window_signal.2.1 none "A" 0 5 rfl (by norm_num)
  · refine (c3_window_signal.2.2 (some ["1970-01-01 00:00:00,A,10.0"]) "A" 0 11 10
      ?_ (by norm_num)).trans (by with_unfolding_all rfl)
    exact (c3_window_signal.1 ["1970-01-01 00:00:00,A,10.0"] "A" 0
      (by with_unfolding_all decide)).trans (by with_unfolding_all rfl)

/-- C1 counterexample: an item with no cache entry is *not* alert-free
regardless of the ledger: with a prior in-window ledger observation of 100
and a fetched price of 200, the appended observation makes the window
average 150 and a window alert fires (the instant channel stays silent). -/
theorem c1_counterexample :
    (processItem (fun _ => some 200) 1748739600 "AK"
        ⟨fun _ => none, some ["2025-06-01 00:30:00,AK,100.0"]⟩).map
      (fun r => (r.2.1, r.2.2)) = .ok ([], [⟨150, 200, 1 / 3, true⟩]) := by
  with_unfolding_all rfl

/-- C1 (amended): for an item with no prior cache entry and a successful
fetch of a nonzero price, when the rest of the ledger contributes no
in-window observation of the item (and the just-appended record scans back
as the fetched price), the iteration succeeds, writes exactly one new cache
entry — the fetched price, the current time, and the fetched price as
window average — changes no other item's entry, and sends zero alerts on
both channels. (With other in-window ledger observations a window alert can
fire, see the counterexample; a fetched price of exactly 0 instead raises
`ZeroDivisionError`.) -/
theorem c1_first_observation
    (f : String → Option ℚ) (now : ℚ) (item : String) (st : BotState) (p : ℚ)
    (hc : st.cache item = none) (hf : f item = some p) (hp : p ≠ 0)
    (hold : scanLedger (st.ledger.getD []) item (now - 3 * 3600) = .ok [])
    (hnew : scanStep item (now - 3 * 3600) (historyLine now item p) = .ok (some p)) :
    processItem f now item st =
      .ok (⟨updateCache st.cache item ⟨some p, some now, some p⟩,
        some (append_history item p now st.ledger)⟩, [], []) := by
  have hskip : staleSkip (st.cache item) now = false := by
    simp [staleSkip, hc]
  have hinst : instantStage ((st.cache item).bind (fun e => e.price)) p = .ok [] := by
    rw [hc]
    show instantStage none p = .ok []
    simp only [instantStage, Option.getD_none, ite_self]
    rw [show pyDiv (p - p) p = .ok 0 by simp [pyDiv, hp, sub_self, zero_div]]
    norm_num
  have hone : scanLedger [historyLine now item p] item (now - 3 * 3600) = .ok [p] :=
    scanLedger_singleton item (historyLine now item p) (now - 3 * 3600) p hnew
  have hscan : scanLedger (append_history item p now st.ledger) item (now - 3 * 3600) =
      .ok [p] := by
    unfold append_history
    rw [scanLedger_append, hold, hone]
    rfl
  have havg : get_3hr_avg (some (append_history item p now st.ledger)) item now =
      .ok (some p) := by
    simp only [get_3hr_avg, hscan, List.isEmpty_cons, List.sum_cons, List.sum_nil,
      List.length_singleton, Nat.cast_one, add_zero, div_one]
    rfl
  have hwin : windowStage (some (append_history item p now st.ledger)) item now p =
      .ok (p, []) := by
    simp only [windowStage, havg, Option.getD_some]
    rw [show pyDiv (p - p) p = .ok 0 by simp [pyDiv, hp, sub_self, zero_div]]
    norm_num
  simp only [processItem, hskip, Bool.false_eq_true, if_false, hf, hinst, hwin]

/-- C1 witness: the first observation of item "A" at price 10 over an empty
ledger creates its cache entry and sends no alert. -/
theorem c1_first_observation_witness :
    processItem (fun _ => some 10) 0 "A" ⟨fun _ => none, none⟩ =
      .ok (⟨updateCache (fun _ => none) "A" ⟨some 10, some 0, some 10⟩,
        some (append_history "A" 10 0 none)⟩, [], []) :=
  c1_first_observation (fun _ => some 10) 0 "A" ⟨fun _ => none, none⟩ 10 rfl rfl
    (by norm_num) rfl (by with_unfolding_all rfl)

/-- C4: the run is aborted by ledger content. A ledger holding one record
whose item text contains a comma (four fields after splitting) makes the
window computation of the *first* item raise `ValueError` out of the
per-item loop: the whole run errors and the second item is never
processed, contradicting per-item isolation. -/
theorem c4_malformed_ledger_aborts_run :
    runBot (fun _ => some 10) [("A", 0), ("B", 0)]
      ⟨fun _ => none, some ["2025-06-01 00:00:00,AK-47, Redline,100.0"]⟩ =
      .error .valueError := by
  with_unfolding_all rfl

end SteamBot
